import Mathlib

/-!
Verification development for the Calm-Mail triage agent.

The repository contains two near-identical entry points:
 - `arzius_agent.py` (CLI agent): `extract_domain_info`, `analyze_email_sovereign`,
   `LabelManager.get_or_create`, and the batch execution section of `main`.
 - `main.py` (GUI agent): the inlined pipeline of `run_agent_logic`.

Strings are modelled as `List Char`; Python `str.lower`/`str.upper` act
ASCII-wise as `Char.toLower`/`Char.toUpper`.  Definitions prefixed `arz` embed
`arzius_agent.py`; definitions prefixed `main` embed `main.py`.
-/

namespace CalmMail

abbrev Str := List Char

/-- Convert a Lean string literal to the `List Char` representation. -/
def chars (s : String) : Str := s.toList

/-- Python substring test `needle in hay` (contiguous substring; empty needle
always matches). -/
def pyIn (needle : Str) : Str → Bool
  | [] => needle.isPrefixOf []
  | c :: rest => needle.isPrefixOf (c :: rest) || pyIn needle rest

/-- Characters stripped by Python `str.strip()` (ASCII whitespace). -/
def pySpace (c : Char) : Bool :=
  c = ' ' || c = '\t' || c = '\n' || c = '\r' || c = '\x0b' || c = '\x0c'

/-- Python `str.strip()`. -/
def pyStrip (s : Str) : Str :=
  ((s.dropWhile pySpace).reverse.dropWhile pySpace).reverse

/-- Python `str.lower()` (ASCII). -/
def lowerS (s : Str) : Str := s.map Char.toLower

/-- Python `str.upper()` (ASCII). -/
def upperS (s : Str) : Str := s.map Char.toUpper

/-- `email.split('@')[-1]`: the segment after the last `'@'`, or the whole
string when no `'@'` occurs. -/
def afterLast (c : Char) (s : Str) : Str :=
  (s.reverse.takeWhile (fun x => !(x = c : Bool))).reverse

/-- Body of the regex `<(.+?)>` after the opening `'<'` and its first content
character: accumulate characters up to the first `'>'`; `.` does not match a
newline, and a `'>'` must be found. -/
def takeToGt : Str → Option Str
  | [] => none
  | c :: rest =>
    if c = '>' then some []
    else if c = '\n' then none
    else match takeToGt rest with
      | some acc => some (c :: acc)
      | none => none

/-- Attempt of the regex `<(.+?)>` anchored at the head of the string: an
opening `'<'`, at least one non-newline content character, then (non-greedily)
the first possible closing `'>'`. -/
def matchAngleAt : Str → Option Str
  | '<' :: c :: rest =>
    if c = '\n' then none
    else match takeToGt rest with
      | some acc => some (c :: acc)
      | none => none
  | _ => none

/-- `re.search(r'<(.+?)>', s)`: leftmost position where the pattern matches,
with the non-greedy (shortest) content at that position. -/
def searchAngle : Str → Option Str
  | [] => none
  | c :: rest =>
    match matchAngleAt (c :: rest) with
    | some g => some g
    | none => searchAngle rest

/-- `arzius_agent.extract_domain_info`: address is the first `<...>` group if
the regex matches, else the whole header; domain is
`email.split('@')[-1].lower().strip()` (the `except` branch is unreachable for
string input, so no `"unknown"` fallback actually fires). -/
def extract_domain_info (sender : Str) : Str × Str :=
  let email := (searchAngle sender).getD sender
  (email, pyStrip (lowerS (afterLast '@' email)))

/-- `main.run_agent_logic`: the address extraction (same regex). -/
def mainEmail (send : Str) : Str := (searchAngle send).getD send

/-- `main.run_agent_logic`:
`email.split('@')[-1].lower().strip() if '@' in email else "unknown"`. -/
def mainDomain (send : Str) : Str :=
  let email := mainEmail send
  if '@' ∈ email then pyStrip (lowerS (afterLast '@' email)) else chars ("unknown")

/-! ## JSON model

A model of Python `json.loads` sufficient for the oracle payloads: objects,
arrays, strings (with the common escapes), integer numerals, `true`, `false`,
`null`.  Floating-point numerals and `\u` escapes are outside the model; no
theorem below depends on numeric or escaped payloads. -/

inductive Json where
  | null
  | bool (b : Bool)
  | num (n : Int)
  | str (s : Str)
  | arr (elems : List Json)
  | obj (fields : List (Str × Json))

/-- JSON insignificant whitespace. -/
def jsWs (c : Char) : Bool := c = ' ' || c = '\t' || c = '\n' || c = '\r'

/-- Parse the body of a JSON string after the opening quote; returns the
decoded content and the remainder after the closing quote. -/
def parseStringBody : Str → Option (Str × Str)
  | [] => none
  | c :: rest =>
    if c = '"' then some ([], rest)
    else if c = '\\' then
      match rest with
      | [] => none
      | e :: rest2 =>
        let ech : Option Char :=
          if e = '"' then some '"' else if e = '\\' then some '\\'
          else if e = '/' then some '/' else if e = 'n' then some '\n'
          else if e = 't' then some '\t' else if e = 'r' then some '\r'
          else if e = 'b' then some '\x08' else if e = 'f' then some '\x0c'
          else none
        match ech with
        | some ch =>
          match parseStringBody rest2 with
          | some (acc, rem) => some (ch :: acc, rem)
          | none => none
        | none => none
    else
      match parseStringBody rest with
      | some (acc, rem) => some (c :: acc, rem)
      | none => none

/-- Numeric value of a digit run. -/
def digitsVal (ds : Str) : Nat := ds.foldl (fun a c => a * 10 + (c.toNat - 48)) 0

/-- Parse an integer numeral (optional leading minus). -/
def parseNum (s : Str) : Option (Json × Str) :=
  match s with
  | '-' :: rest =>
    let ds := rest.takeWhile Char.isDigit
    if ds.isEmpty then none
    else some (.num (-(digitsVal ds : Int)), rest.dropWhile Char.isDigit)
  | _ =>
    let ds := s.takeWhile Char.isDigit
    if ds.isEmpty then none
    else some (.num (digitsVal ds), s.dropWhile Char.isDigit)

mutual

/-- Parse one JSON value (fuel-indexed recursive descent). -/
def parseVal : Nat → Str → Option (Json × Str)
  | 0, _ => none
  | fuel + 1, s =>
    match s.dropWhile jsWs with
    | [] => none
    | c :: rest =>
      if c = '"' then
        match parseStringBody rest with
        | some (content, rem) => some (.str content, rem)
        | none => none
      else if c = '\x7b' then
        match parseObjElems fuel rest with
        | some (fields, rem) => some (.obj fields, rem)
        | none => none
      else if c = '[' then
        match parseArrElems fuel rest with
        | some (elems, rem) => some (.arr elems, rem)
        | none => none
      else if c = 't' then
        if (chars ("rue")).isPrefixOf rest then some (.bool true, rest.drop 3) else none
      else if c = 'f' then
        if (chars ("alse")).isPrefixOf rest then some (.bool false, rest.drop 4) else none
      else if c = 'n' then
        if (chars ("ull")).isPrefixOf rest then some (.null, rest.drop 3) else none
      else parseNum (c :: rest)

/-- Parse array elements after `'['` (empty array allowed). -/
def parseArrElems : Nat → Str → Option (List Json × Str)
  | 0, _ => none
  | fuel + 1, s =>
    match s.dropWhile jsWs with
    | ']' :: rem => some ([], rem)
    | t =>
      match parseVal fuel t with
      | none => none
      | some (v, rem) =>
        match rem.dropWhile jsWs with
        | ',' :: rem2 =>
          match parseArrElemsNE fuel rem2 with
          | some (vs, r) => some (v :: vs, r)
          | none => none
        | ']' :: rem2 => some ([v], rem2)
        | _ => none

/-- Parse array elements after a comma (an element is required). -/
def parseArrElemsNE : Nat → Str → Option (List Json × Str)
  | 0, _ => none
  | fuel + 1, s =>
    match parseVal fuel s with
    | none => none
    | some (v, rem) =>
      match rem.dropWhile jsWs with
      | ',' :: rem2 =>
        match parseArrElemsNE fuel rem2 with
        | some (vs, r) => some (v :: vs, r)
        | none => none
      | ']' :: rem2 => some ([v], rem2)
      | _ => none

/-- Parse object members after `'\x7b'` (empty object allowed). -/
def parseObjElems : Nat → Str → Option (List (Str × Json) × Str)
  | 0, _ => none
  | fuel + 1, s =>
    match s.dropWhile jsWs with
    | '\x7d' :: rem => some ([], rem)
    | '"' :: rest =>
      match parseStringBody rest with
      | none => none
      | some (k, rem) =>
        match rem.dropWhile jsWs with
        | ':' :: rem2 =>
          match parseVal fuel rem2 with
          | none => none
          | some (v, rem3) =>
            match rem3.dropWhile jsWs with
            | ',' :: rem4 =>
              match parseObjElemsNE fuel rem4 with
              | some (ps, r) => some ((k, v) :: ps, r)
              | none => none
            | '\x7d' :: rem4 => some ([(k, v)], rem4)
            | _ => none
        | _ => none
    | _ => none

/-- Parse object members after a comma (a member is required). -/
def parseObjElemsNE : Nat → Str → Option (List (Str × Json) × Str)
  | 0, _ => none
  | fuel + 1, s =>
    match s.dropWhile jsWs with
    | '"' :: rest =>
      match parseStringBody rest with
      | none => none
      | some (k, rem) =>
        match rem.dropWhile jsWs with
        | ':' :: rem2 =>
          match parseVal fuel rem2 with
          | none => none
          | some (v, rem3) =>
            match rem3.dropWhile jsWs with
            | ',' :: rem4 =>
              match parseObjElemsNE fuel rem4 with
              | some (ps, r) => some ((k, v) :: ps, r)
              | none => none
            | '\x7d' :: rem4 => some ([(k, v)], rem4)
            | _ => none
        | _ => none
    | _ => none

end

/-- Python `json.loads`: parse one value and require only whitespace after. -/
def json_loads (s : Str) : Option Json :=
  match parseVal (s.length + 1) s with
  | some (v, rem) => if (rem.dropWhile jsWs).isEmpty then some v else none
  | none => none

/-- Python `dict.get` on a parsed JSON object (later duplicate keys shadow
earlier ones, as in `json.loads`). -/
def jget (fields : List (Str × Json)) (k : Str) : Option Json :=
  fields.reverse.lookup k

/-! ## Decision engines

`arzius_agent.analyze_email_sovereign` and the inlined decision pipeline of
`main.run_agent_logic` (lines 200–225).  The oracle call is modelled by its
observable outcome: `none` when `ollama.chat` raises, `some content` for the
returned message text.  The surrounding prompt construction has no influence
on the decision and is not modelled. -/

/-- Decisions of `analyze_email_sovereign` (the returned dict): a `reason`
value accompanies `DELETE`/`LABEL` (absent on the oracle-failure `SKIP`). -/
inductive ArzDecision where
  | delete (reason : Option Json)
  | label (name : Str) (reason : Option Json)
  | skip

def ArzDecision.isDelete : ArzDecision → Bool
  | .delete _ => true
  | _ => false

def ArzDecision.isSkip : ArzDecision → Bool
  | .skip => true
  | _ => false

def ArzDecision.labelName : ArzDecision → Option Str
  | .label n _ => some n
  | _ => none

def ArzDecision.reasonOf : ArzDecision → Option Json
  | .delete r => r
  | .label _ r => r
  | .skip => none

/-- The `action`/`label` pair of `main.run_agent_logic`. -/
inductive MainAction where
  | delete
  | label (name : Str)
  | skip
deriving DecidableEq

/-- `content.find('\x7b')` as an index option. -/
def findIdx (c : Char) (s : Str) : Option Nat := s.findIdx? (· = c)

/-- `content.rfind('\x7d')` as an index option. -/
def rfindIdx (c : Char) (s : Str) : Option Nat :=
  (s.reverse.findIdx? (· = c)).map (fun i => s.length - 1 - i)

/-- `analyze_email_sovereign`: `content[start:end]` where
`start = content.find('\x7b')` (raising when `-1`) and
`end = content.rfind('\x7d') + 1`. -/
def arzSlice (content : Str) : Option Str :=
  match findIdx '\x7b' content with
  | none => none
  | some st =>
    let en := match rfindIdx '\x7d' content with
      | some j => j + 1
      | none => 0
    some ((content.drop st).take (en - st))

/-- `run_agent_logic`: the same slice but without the `-1` guard — Python
index `-1` denotes the last character (`len - 1`; `0` on an empty string). -/
def mainSlice (content : Str) : Str :=
  let st := match findIdx '\x7b' content with
    | some i => i
    | none => content.length - 1
  let en := match rfindIdx '\x7d' content with
    | some j => j + 1
    | none => 0
  (content.drop st).take (en - st)

/-- The oracle phase of `analyze_email_sovereign` (lines 145–169): any failure
(call error, no JSON, parse error, non-string category) falls to the
`except` handler returning `SKIP`; a missing `category` key defaults to
`"INBOX"`; the category is stripped and `DELETE`/`SPAM`/`TRASH` are the delete
synonyms; every other category (including `INBOX`) is returned as a label. -/
def arzOracle (mresp : Option Str) : ArzDecision :=
  match mresp with
  | none => .skip
  | some content =>
    match arzSlice content with
    | none => .skip
    | some sliced =>
      match json_loads sliced with
      | none => .skip
      | some (.obj fields) =>
        match (jget fields (chars ("category"))).getD (.str (chars ("INBOX"))) with
        | .str c0 =>
          let category := pyStrip c0
          if upperS category ∈ [chars ("DELETE"), chars ("SPAM"), chars ("TRASH")] then
            .delete (jget fields (chars ("reasoning")))
          else
            .label category (jget fields (chars ("reasoning")))
        | _ => .skip
      | some _ => .skip

/-- The oracle phase of `run_agent_logic` (lines 218–225): delete synonyms are
only `DELETE`/`SPAM` (no strip), `INBOX` leaves the action as `SKIP`, anything
else labels with the category verbatim; any exception is swallowed
(`except: pass`) leaving `SKIP`. -/
def mainOracle (mresp : Option Str) : MainAction :=
  match mresp with
  | none => .skip
  | some content =>
    match json_loads (mainSlice content) with
    | none => .skip
    | some (.obj fields) =>
      match (jget fields (chars ("category"))).getD (.str (chars ("INBOX"))) with
      | .str c =>
        if upperS c ∈ [chars ("DELETE"), chars ("SPAM")] then .delete
        else if upperS c ≠ chars ("INBOX") then .label c
        else .skip
      | _ => .skip
    | some _ => .skip

/-- The configuration fields consumed by `analyze_email_sovereign`. -/
structure ArzConfig where
  blacklist_domains : List Str
  family_emails : List Str

/-- `analyze_email_sovereign`: kill list, then whitelist, then oracle.  The
early-return loops are folded to `List.any` since every return inside each
loop is identical. -/
def arziusAnalyze (cfg : ArzConfig) (sender : Str) (oracleResp : Option Str) :
    ArzDecision :=
  let clean_email := (extract_domain_info sender).1
  let domain := (extract_domain_info sender).2
  if cfg.blacklist_domains.any (fun b => pyIn b domain) then
    .delete (some (.str (chars ("Blacklisted Domain (") ++ domain ++ chars (")"))))
  else if cfg.family_emails.any (fun f => pyIn (lowerS f) (lowerS clean_email)) then
    .label (chars ("Family")) (some (.str (chars ("Whitelist"))))
  else
    arzOracle oracleResp

/-- The configuration fields consumed by the `run_agent_logic` pipeline;
`label_rules` keeps the dict's insertion order. -/
structure MainConfig where
  blacklist_domains : List Str
  label_rules : List (Str × List Str)

/-- The rule phase of `run_agent_logic` (lines 211–214): first label in
declared order one of whose patterns occurs in the lowercased address wins. -/
def firstRuleMatch (email : Str) : List (Str × List Str) → Option Str
  | [] => none
  | (l, r) :: rest =>
    if r.any (fun x => pyIn (lowerS x) (lowerS email)) then some l
    else firstRuleMatch email rest

/-- The decision pipeline of `run_agent_logic` (lines 200–225): blacklist,
then rules, then oracle; each later phase runs only while `action == "SKIP"`. -/
def mainDecide (cfg : MainConfig) (send : Str) (oracleResp : Option Str) :
    MainAction :=
  if cfg.blacklist_domains.any (fun b => pyIn b (mainDomain send)) then .delete
  else
    match firstRuleMatch (mainEmail send) cfg.label_rules with
    | some l => .label l
    | none => mainOracle oracleResp

/-! ## Label resolution

`LabelManager` of `arzius_agent.py` and the inlined `label_cache` handling of
`run_agent_logic` (lines 233–238).  The provider is modelled by its label
listing (for `refresh_cache`) and by a script giving the outcome of each
successive `labels().create` call. -/

/-- Outcome of one `labels().create` request. -/
inductive CreateOutcome where
  | success (id : Str)
  | conflict
  | failure
deriving DecidableEq

/-- Resolver state: the cache dict plus the number of creation requests
issued so far in the session. -/
structure ResolverSt where
  cache : List (Str × Str)
  creates : Nat
deriving DecidableEq

/-- Python dict insert (overwrites an existing key). -/
def dinsert (k v : Str) (d : List (Str × Str)) : List (Str × Str) := (k, v) :: d

/-- Python dict lookup. -/
def dget (k : Str) (d : List (Str × Str)) : Option Str := d.lookup k

/-- `refresh_cache` / the initial `label_cache` construction:
`\x7bl['name'].lower(): l['id'] for l in labels\x7d`. -/
def fromListing (listing : List (Str × Str)) : List (Str × Str) :=
  listing.foldl (fun d p => dinsert (lowerS p.1) p.2 d) []

/-- Python truthiness of the `lid` variable (`None` and `""` are falsy). -/
def optTruthy : Option Str → Bool
  | some s => !s.isEmpty
  | none => false

/-- The fixed system-label set of `LabelManager.get_or_create`. -/
def systemLabels : List Str :=
  [chars ("INBOX"), chars ("SPAM"), chars ("TRASH"), chars ("UNREAD"),
   chars ("STARRED"), chars ("IMPORTANT")]

/-- `LabelManager.get_or_create`: system-label passthrough, cache hit,
otherwise a creation request; HTTP 409 refreshes the whole cache from the
listing and answers from it, any other error returns `None` leaving the cache
unchanged. -/
def arzGetOrCreate (listing : List (Str × Str)) (script : Nat → CreateOutcome)
    (st : ResolverSt) (name : Str) : Option Str × ResolverSt :=
  let clean := pyStrip name
  if upperS clean ∈ systemLabels then (some (upperS clean), st)
  else
    let key := lowerS clean
    match dget key st.cache with
    | some id => (some id, st)
    | none =>
      match script st.creates with
      | .success newId => (some newId, ⟨dinsert key newId st.cache, st.creates + 1⟩)
      | .conflict =>
        let c := fromListing listing
        (dget key c, ⟨c, st.creates + 1⟩)
      | .failure => (none, ⟨st.cache, st.creates + 1⟩)

/-- The inlined resolver of `run_agent_logic` (lines 233–238): a plain cache
probe (`lid = label_cache.get(label.lower())`, no strip, no system-label
mapping), then `labels().create` guarded by `except: pass` — any failure,
conflict included, leaves `lid` falsy and the cache untouched. -/
def mainGetOrCreate (script : Nat → CreateOutcome) (st : ResolverSt)
    (name : Str) : Option Str × ResolverSt :=
  let key := lowerS name
  let lid0 := dget key st.cache
  if optTruthy lid0 then (lid0, st)
  else
    match script st.creates with
    | .success newId => (some newId, ⟨dinsert key newId st.cache, st.creates + 1⟩)
    | _ => (lid0, ⟨st.cache, st.creates + 1⟩)

/-! ## Batch executor

The execution sections: `arzius_agent.main` lines 245–267 and
`run_agent_logic` lines 247–254. -/

/-- One `batchModify` request body. -/
structure GRequest where
  ids : List Str
  addLabelIds : List Str
  removeLabelIds : List Str
deriving DecidableEq

/-- The batched calls due in one cycle of `arzius_agent.main`: one trash call
(adding `TRASH`, stripping `INBOX`/`UNREAD`/`IMPORTANT`) when `trash_ids` is
non-empty, then one call per `move_map` entry. -/
def arzRequests (trash : List Str) (moves : List (Str × List Str)) :
    List GRequest :=
  (if trash.isEmpty then []
   else [⟨trash, [chars ("TRASH")],
          [chars ("INBOX"), chars ("UNREAD"), chars ("IMPORTANT")]⟩])
  ++ moves.map (fun p => ⟨p.2, [p.1], [chars ("INBOX")]⟩)

/-- The batched calls due in one cycle of `run_agent_logic`: the trash call
removes only `INBOX`, and a `move_map` entry keyed `INBOX` is skipped. -/
def mainRequests (trash : List Str) (moves : List (Str × List Str)) :
    List GRequest :=
  (if trash.isEmpty then []
   else [⟨trash, [chars ("TRASH")], [chars ("INBOX")]⟩])
  ++ (moves.filter (fun p => !(p.1 = chars ("INBOX") : Bool))).map
      (fun p => ⟨p.2, [p.1], [chars ("INBOX")]⟩)

/-- Sequential issue that stops after the first failing call: the failing call
was issued (it ran), the remaining ones are not reached. -/
def issueUpTo (fail : GRequest → Bool) : List GRequest → List GRequest
  | [] => []
  | r :: rs => if fail r then [r] else r :: issueUpTo fail rs

/-- Calls actually issued by `run_agent_logic` under the failure pattern
`fail`: the `batchModify` calls are not individually guarded, so an exception
propagates to the outer handler and aborts the rest of the cycle. -/
def mainIssued (fail : GRequest → Bool) (trash : List Str)
    (moves : List (Str × List Str)) : List GRequest :=
  issueUpTo fail (mainRequests trash moves)

/-- Calls actually issued by `arzius_agent.main`: each `batchModify` sits in
its own `try/except HttpError`, so every due call is issued regardless of
which ones fail, and none is reissued. -/
def arzIssued (_fail : GRequest → Bool) (trash : List Str)
    (moves : List (Str × List Str)) : List GRequest :=
  arzRequests trash moves

/-! ## Scan loop

The per-message accumulation of `trash_ids` / `move_map`:
`run_agent_logic` lines 189–242 and `arzius_agent.main` lines 199–241. -/

/-- The message data consumed by one scan step. -/
structure Msg where
  id : Str
  sender : Str

/-- The per-cycle accumulator plus the resolver state it threads. -/
structure ScanSt where
  trash : List Str
  moveMap : List (Str × List Str)
  rst : ResolverSt

/-- `move_map` update: `if lid not in move_map: move_map[lid] = []` followed by
`move_map[lid].append(msg_id)` (insertion-ordered dict). -/
def mmAppend (k v : Str) : List (Str × List Str) → List (Str × List Str)
  | [] => [(k, [v])]
  | (k', vs) :: rest =>
    if k' = k then (k', vs ++ [v]) :: rest else (k', vs) :: mmAppend k v rest

/-- All message identifiers placed in the batch plan. -/
def planIds (st : ScanSt) : List Str :=
  st.trash ++ (st.moveMap.map Prod.snd).flatten

/-- One iteration of the scan loop of `run_agent_logic` (lines 193–242). -/
def mainScanStep (cfg : MainConfig) (script : Nat → CreateOutcome)
    (oracle : Msg → Option Str) (st : ScanSt) (m : Msg) : ScanSt :=
  match mainDecide cfg m.sender (oracle m) with
  | .delete => ⟨st.trash ++ [m.id], st.moveMap, st.rst⟩
  | .label name =>
    let res := mainGetOrCreate script st.rst name
    if optTruthy res.1 then
      ⟨st.trash, mmAppend (res.1.getD []) m.id st.moveMap, res.2⟩
    else ⟨st.trash, st.moveMap, res.2⟩
  | .skip => st

/-- The scan loop of `run_agent_logic`: the cache starts from the session's
initial label listing (line 171). -/
def mainScan (cfg : MainConfig) (listing : List (Str × Str))
    (script : Nat → CreateOutcome) (oracle : Msg → Option Str)
    (msgs : List Msg) : ScanSt :=
  msgs.foldl (mainScanStep cfg script oracle) ⟨[], [], ⟨fromListing listing, 0⟩⟩

/-- One iteration of the scan loop of `arzius_agent.main` (lines 204–240). -/
def arzScanStep (cfg : ArzConfig) (listing : List (Str × Str))
    (script : Nat → CreateOutcome) (oracle : Msg → Option Str)
    (st : ScanSt) (m : Msg) : ScanSt :=
  match arziusAnalyze cfg m.sender (oracle m) with
  | .delete _ => ⟨st.trash ++ [m.id], st.moveMap, st.rst⟩
  | .label name _ =>
    let res := arzGetOrCreate listing script st.rst name
    if optTruthy res.1 then
      ⟨st.trash, mmAppend (res.1.getD []) m.id st.moveMap, res.2⟩
    else ⟨st.trash, st.moveMap, res.2⟩
  | .skip => st

/-- The scan loop of `arzius_agent.main`: `LabelManager.__init__` fills the
cache from the listing before the scan. -/
def arzScan (cfg : ArzConfig) (listing : List (Str × Str))
    (script : Nat → CreateOutcome) (oracle : Msg → Option Str)
    (msgs : List Msg) : ScanSt :=
  msgs.foldl (arzScanStep cfg listing script oracle) ⟨[], [], ⟨fromListing listing, 0⟩⟩

/-! ## Claims -/

/-- C1: for every message and every routing configuration, if the parsed
domain of the sender contains (as a substring) a configured blacklist entry,
both decision engines return Delete, independently of the label rules and of
any oracle response (the later phases are never consulted). -/
theorem C1_blacklist_dominates (acfg : ArzConfig) (mcfg : MainConfig)
    (sender : Str) (o : Option Str)
    (ha : ∃ b ∈ acfg.blacklist_domains, pyIn b (extract_domain_info sender).2 = true)
    (hm : ∃ b ∈ mcfg.blacklist_domains, pyIn b (mainDomain sender) = true) :
    (arziusAnalyze acfg sender o).isDelete = true
    ∧ mainDecide mcfg sender o = MainAction.delete := by
  have h1 : acfg.blacklist_domains.any
      (fun b => pyIn b (extract_domain_info sender).2) = true := by
    obtain ⟨b, hb, hp⟩ := ha
    exact List.any_eq_true.mpr ⟨b, hb, hp⟩
  have h2 : mcfg.blacklist_domains.any (fun b => pyIn b (mainDomain sender)) = true := by
    obtain ⟨b, hb, hp⟩ := hm
    exact List.any_eq_true.mpr ⟨b, hb, hp⟩
  constructor
  · unfold arziusAnalyze
    simp only [h1, if_true, ArzDecision.isDelete]
  · unfold mainDecide
    simp only [h2, if_true]

/-- C1 witness: a concrete blacklisted message is deleted by both engines. -/
theorem C1_witness :
    ((arziusAnalyze ⟨[chars ("quora.com")], [chars ("mom@home.net")]⟩
        (chars ("Bob <bob@mail.quora.com>")) none).isDelete = true)
    ∧ (mainDecide ⟨[chars ("quora.com")], [(chars ("Work"), [chars ("zzz")])]⟩
        (chars ("Bob <bob@mail.quora.com>")) none = MainAction.delete) :=
  C1_blacklist_dominates _ _ _ _ (by decide) (by decide)

/-- C2 counterexample: an oracle response that is a well-formed JSON object
with no `category` field.  The claim demands Skip from the decision engine,
but `analyze_email_sovereign` (reached with empty blacklist/whitelist)
defaults the category to `INBOX` and returns Label INBOX, not Skip. -/
theorem C2_counterexample :
    (arziusAnalyze ⟨[], []⟩ (chars ("a@b.com"))
        (some (chars ("\x7b\"reasoning\":\"x\"\x7d")))).isSkip = false
    ∧ (arziusAnalyze ⟨[], []⟩ (chars ("a@b.com"))
        (some (chars ("\x7b\"reasoning\":\"x\"\x7d")))).labelName
        = some (chars ("INBOX")) := by
  constructor
  · decide
  · decide

/-- C2 amended: on an oracle call failure or a response without a parseable
JSON object, both engines return Skip; when the parsed object lacks a
`category` field the default category `INBOX` applies — the GUI engine
(`run_agent_logic`) returns Skip while the CLI engine
(`analyze_email_sovereign`) returns Label INBOX; no such case returns
Delete. -/
theorem C2_amended_oracle_failures :
    (arzOracle none = ArzDecision.skip ∧ mainOracle none = MainAction.skip)
    ∧ (∀ content, arzSlice content = none →
        arzOracle (some content) = ArzDecision.skip)
    ∧ (∀ content sliced, arzSlice content = some sliced → json_loads sliced = none →
        arzOracle (some content) = ArzDecision.skip)
    ∧ (∀ content, json_loads (mainSlice content) = none →
        mainOracle (some content) = MainAction.skip)
    ∧ (∀ content sliced fields, arzSlice content = some sliced →
        json_loads sliced = some (Json.obj fields) →
        jget fields (chars ("category")) = none →
        arzOracle (some content)
          = ArzDecision.label (chars ("INBOX")) (jget fields (chars ("reasoning"))))
    ∧ (∀ content fields, json_loads (mainSlice content) = some (Json.obj fields) →
        jget fields (chars ("category")) = none →
        mainOracle (some content) = MainAction.skip) := by
  refine ⟨⟨rfl, rfl⟩, ?_, ?_, ?_, ?_, ?_⟩
  · intro content h
    unfold arzOracle
    simp only [h]
  · intro content sliced h1 h2
    unfold arzOracle
    simp only [h1, h2]
  · intro content h
    unfold mainOracle
    simp only [h]
  · intro content sliced fields h1 h2 h3
    unfold arzOracle
    simp only [h1, h2, h3, Option.getD]
    rw [if_neg (by decide)]
    rfl
  · intro content fields h1 h2
    unfold mainOracle
    simp only [h1, h2, Option.getD]
    rw [if_neg (by decide), if_neg (by decide)]

/-- C2 amended witness: concrete instances of the oracle-failure cases. -/
theorem C2_amended_witness :
    (arzSlice (chars ("no json here")) = none
      ∧ arzOracle (some (chars ("no json here"))) = ArzDecision.skip)
    ∧ (json_loads (mainSlice (chars ("\x7b broken"))) = none
      ∧ mainOracle (some (chars ("\x7b broken"))) = MainAction.skip)
    ∧ (jget [((chars ("reasoning")), Json.str (chars ("x")))] (chars ("category")) = none
      ∧ mainOracle (some (chars ("\x7b\"reasoning\":\"x\"\x7d"))) = MainAction.skip) :=
  ⟨⟨rfl, C2_amended_oracle_failures.2.1 _ rfl⟩,
   ⟨rfl, C2_amended_oracle_failures.2.2.2.1 _ rfl⟩,
   ⟨rfl, C2_amended_oracle_failures.2.2.2.2.2 _ _ rfl rfl⟩⟩

/-- C3 counterexample: the claim's category mapping fails on both engines.
`run_agent_logic` treats `TRASH` as a plain label (its delete synonyms are
only `DELETE`/`SPAM`), and `analyze_email_sovereign` turns `INBOX` into
Label INBOX rather than Skip. -/
theorem C3_counterexample :
    mainOracle (some (chars ("\x7b\"category\":\"TRASH\"\x7d")))
      = MainAction.label (chars ("TRASH"))
    ∧ (arziusAnalyze ⟨[], []⟩ (chars ("a@b.com"))
        (some (chars ("\x7b\"category\":\"INBOX\"\x7d")))).isSkip = false := by
  constructor
  · decide
  · decide

/-- C3 amended: for a successfully parsed oracle response whose `category`
field is the string c — the CLI engine (`analyze_email_sovereign`) strips c
and returns Delete when it case-insensitively equals DELETE, SPAM or TRASH,
otherwise Label with the stripped c (INBOX included); the GUI engine
(`run_agent_logic`) returns Delete only for DELETE or SPAM, Skip when c
case-insensitively equals INBOX, and otherwise Label with c verbatim (TRASH
included), even when c is not among the configured label names. -/
theorem C3_amended_category_mapping (carz cmain sliced : Str)
    (fieldsA fieldsM : List (Str × Json)) (cA cM : Str)
    (ha1 : arzSlice carz = some sliced)
    (ha2 : json_loads sliced = some (Json.obj fieldsA))
    (ha3 : jget fieldsA (chars ("category")) = some (Json.str cA))
    (hm1 : json_loads (mainSlice cmain) = some (Json.obj fieldsM))
    (hm2 : jget fieldsM (chars ("category")) = some (Json.str cM)) :
    ((upperS (pyStrip cA) ∈ [chars ("DELETE"), chars ("SPAM"), chars ("TRASH")] →
        arzOracle (some carz)
          = ArzDecision.delete (jget fieldsA (chars ("reasoning"))))
     ∧ (upperS (pyStrip cA) ∉ [chars ("DELETE"), chars ("SPAM"), chars ("TRASH")] →
        arzOracle (some carz)
          = ArzDecision.label (pyStrip cA) (jget fieldsA (chars ("reasoning")))))
    ∧ ((upperS cM ∈ [chars ("DELETE"), chars ("SPAM")] →
          mainOracle (some cmain) = MainAction.delete)
       ∧ (upperS cM ∉ [chars ("DELETE"), chars ("SPAM")] →
          upperS cM = chars ("INBOX") →
          mainOracle (some cmain) = MainAction.skip)
       ∧ (upperS cM ∉ [chars ("DELETE"), chars ("SPAM")] →
          upperS cM ≠ chars ("INBOX") →
          mainOracle (some cmain) = MainAction.label cM)) := by
  refine ⟨⟨?_, ?_⟩, ?_, ?_, ?_⟩
  · intro h
    unfold arzOracle
    simp only [ha1, ha2, ha3, Option.getD]
    rw [if_pos h]
  · intro h
    unfold arzOracle
    simp only [ha1, ha2, ha3, Option.getD]
    rw [if_neg h]
  · intro h
    unfold mainOracle
    simp only [hm1, hm2, Option.getD]
    rw [if_pos h]
  · intro h hi
    unfold mainOracle
    simp only [hm1, hm2, Option.getD]
    rw [if_neg h, if_neg (by simpa using hi)]
  · intro h hi
    unfold mainOracle
    simp only [hm1, hm2, Option.getD]
    rw [if_neg h, if_pos hi]

/-- C3 amended witness: concrete category strings on both engines. -/
theorem C3_amended_witness :
    mainOracle (some (chars ("\x7b\"category\":\"Gaming\"\x7d")))
      = MainAction.label (chars ("Gaming"))
    ∧ arzOracle (some (chars ("\x7b\"category\":\"spam\"\x7d")))
      = ArzDecision.delete none :=
  ⟨(C3_amended_category_mapping (chars ("\x7b\"category\":\"Gaming\"\x7d"))
      (chars ("\x7b\"category\":\"Gaming\"\x7d"))
      (chars ("\x7b\"category\":\"Gaming\"\x7d"))
      [((chars ("category")), Json.str (chars ("Gaming")))]
      [((chars ("category")), Json.str (chars ("Gaming")))]
      (chars ("Gaming")) (chars ("Gaming")) rfl rfl rfl rfl rfl).2.2.2
      (by decide) (by decide),
   (C3_amended_category_mapping (chars ("\x7b\"category\":\"spam\"\x7d"))
      (chars ("\x7b\"category\":\"spam\"\x7d"))
      (chars ("\x7b\"category\":\"spam\"\x7d"))
      [((chars ("category")), Json.str (chars ("spam")))]
      [((chars ("category")), Json.str (chars ("spam")))]
      (chars ("spam")) (chars ("spam")) rfl rfl rfl rfl rfl).1.1 (by decide)⟩

/-- The rule loop returns the first label, in declared order, one of whose
patterns occurs in the address. -/
theorem firstRuleMatch_first (email L : Str) (rs : List Str)
    (pre post : List (Str × List Str))
    (hpre : ∀ p ∈ pre, p.2.any (fun x => pyIn (lowerS x) (lowerS email)) = false)
    (hL : rs.any (fun x => pyIn (lowerS x) (lowerS email)) = true) :
    firstRuleMatch email (pre ++ (L, rs) :: post) = some L := by
  induction pre with
  | nil => simp [firstRuleMatch, hL]
  | cons hd tl ih =>
    obtain ⟨l, r⟩ := hd
    have h0 : r.any (fun x => pyIn (lowerS x) (lowerS email)) = false :=
      hpre (l, r) (by simp)
    simp only [List.cons_append, firstRuleMatch, h0]
    exact ih (fun p hp => hpre p (List.mem_cons_of_mem _ hp))

/-- C4 counterexample: with declared rules `A ↦ [""]`, `B ↦ ["x"]` and address
`x@y`, the first label with a matching non-empty pattern is `B`, yet the
engine returns Label `A`, because the empty pattern also matches (Python
`"" in s` is always true). -/
theorem C4_counterexample :
    [chars ("x")].any
      (fun x => !x.isEmpty
        && pyIn (lowerS x) (lowerS (mainEmail (chars ("x@y"))))) = true
    ∧ [([] : Str)].any
      (fun x => !x.isEmpty
        && pyIn (lowerS x) (lowerS (mainEmail (chars ("x@y"))))) = false
    ∧ mainDecide ⟨[], [((chars ("A")), [([] : Str)]), ((chars ("B")), [chars ("x")])]⟩
        (chars ("x@y")) none = MainAction.label (chars ("A"))
    ∧ MainAction.label (chars ("A")) ≠ MainAction.label (chars ("B")) := by
  refine ⟨by decide, by decide, by decide, by decide⟩

/-- C4 amended: for a non-blacklisted message, if L is the first label in
declared order one of whose patterns (the empty pattern matching every
address) occurs case-insensitively in the normalized address, the GUI engine
returns Label L without consulting the oracle; the CLI engine's rule phase is
the family whitelist, returning Label Family with reason `"Whitelist"` without
consulting the oracle. -/
theorem C4_rule_phase (mcfg : MainConfig) (acfg : ArzConfig)
    (senderM senderA : Str) (o o2 : Option Str) (L : Str) (rs : List Str)
    (pre post : List (Str × List Str))
    (hbm : ∀ b ∈ mcfg.blacklist_domains, pyIn b (mainDomain senderM) = false)
    (hsplit : mcfg.label_rules = pre ++ (L, rs) :: post)
    (hpre : ∀ p ∈ pre, p.2.any (fun x => pyIn (lowerS x) (lowerS (mainEmail senderM))) = false)
    (hL : ∃ x ∈ rs, pyIn (lowerS x) (lowerS (mainEmail senderM)) = true)
    (hba : ∀ b ∈ acfg.blacklist_domains, pyIn b (extract_domain_info senderA).2 = false)
    (hfam : ∃ f ∈ acfg.family_emails,
        pyIn (lowerS f) (lowerS (extract_domain_info senderA).1) = true) :
    mainDecide mcfg senderM o = MainAction.label L
    ∧ arziusAnalyze acfg senderA o2
        = ArzDecision.label (chars ("Family")) (some (Json.str (chars ("Whitelist")))) := by
  constructor
  · have hb : mcfg.blacklist_domains.any (fun b => pyIn b (mainDomain senderM)) = false := by
      rw [List.any_eq_false]
      intro b hbmem
      simp [hbm b hbmem]
    have hLany : rs.any (fun x => pyIn (lowerS x) (lowerS (mainEmail senderM))) = true := by
      obtain ⟨x, hx, hpx⟩ := hL
      exact List.any_eq_true.mpr ⟨x, hx, hpx⟩
    unfold mainDecide
    simp only [hb, Bool.false_eq_true, if_false, hsplit,
      firstRuleMatch_first _ _ _ _ _ hpre hLany]
  · have hb : acfg.blacklist_domains.any
        (fun b => pyIn b (extract_domain_info senderA).2) = false := by
      rw [List.any_eq_false]
      intro b hbmem
      simp [hba b hbmem]
    have hf : acfg.family_emails.any
        (fun f => pyIn (lowerS f) (lowerS (extract_domain_info senderA).1)) = true := by
      obtain ⟨f, hfm, hpf⟩ := hfam
      exact List.any_eq_true.mpr ⟨f, hfm, hpf⟩
    unfold arziusAnalyze
    simp only [hb, Bool.false_eq_true, if_false, hf, if_true]

/-- C4 amended witness: a concrete rule match on each engine. -/
theorem C4_rule_phase_witness :
    mainDecide ⟨[chars ("quora.com")], [((chars ("Finance")), [chars ("chase.com")])]⟩
      (chars ("billing@chase.com")) none = MainAction.label (chars ("Finance"))
    ∧ arziusAnalyze ⟨[chars ("quora.com")], [chars ("mom@home.net")]⟩
        (chars ("Mom <mom@home.net>")) none
        = ArzDecision.label (chars ("Family")) (some (Json.str (chars ("Whitelist")))) :=
  C4_rule_phase _ _ _ _ none none (chars ("Finance")) [chars ("chase.com")] [] []
    (by decide) rfl (by decide) (by decide) (by decide) (by decide)

/-- C5 counterexample: on the GUI executor, the single trash request strips
only the INBOX marker (not UNREAD/IMPORTANT as claimed), and a non-empty
destination keyed INBOX receives no batch-modify request at all. -/
theorem C5_counterexample :
    mainRequests [chars ("m1")] [((chars ("INBOX")), [chars ("m2")])]
      = [⟨[chars ("m1")], [chars ("TRASH")], [chars ("INBOX")]⟩]
    ∧ ([chars ("INBOX")] : List Str)
        ≠ [chars ("INBOX"), chars ("UNREAD"), chars ("IMPORTANT")] := by
  refine ⟨by decide, by decide⟩

/-- Exactly one batch-modify request arises from each `move_map` entry
(destination keys being distinct). -/
theorem count_moves_map (l : Str) (ids : List Str)
    (moves : List (Str × List Str))
    (hnd : (moves.map Prod.fst).Nodup) (hmem : (l, ids) ∈ moves) :
    (moves.map (fun p => (⟨p.2, [p.1], [chars ("INBOX")]⟩ : GRequest))).count
      ⟨ids, [l], [chars ("INBOX")]⟩ = 1 := by
  induction moves with
  | nil => cases hmem
  | cons hd tl ih =>
    have hnd' : (tl.map Prod.fst).Nodup := by
      rw [List.map_cons, List.nodup_cons] at hnd
      exact hnd.2
    have hhd : hd.1 ∉ tl.map Prod.fst := by
      rw [List.map_cons, List.nodup_cons] at hnd
      exact hnd.1
    rcases List.mem_cons.mp hmem with heq | htl
    · subst heq
      have hz : (tl.map (fun p => (⟨p.2, [p.1], [chars ("INBOX")]⟩ : GRequest))).count
          ⟨ids, [l], [chars ("INBOX")]⟩ = 0 := by
        rw [List.count_eq_zero]
        intro hmemr
        obtain ⟨p, hp, hpe⟩ := List.mem_map.mp hmemr
        have hp1 : p.1 = l := by
          have := congrArg GRequest.addLabelIds hpe
          simpa using this
        exact hhd (List.mem_map.mpr ⟨p, hp, hp1⟩)
      rw [List.map_cons, List.count_cons_self, hz]
    · obtain ⟨l', ids'⟩ := hd
      have hl' : l' ≠ l := by
        intro h
        subst h
        exact hhd (List.mem_map.mpr ⟨(l', ids), htl, rfl⟩)
      have hne : (⟨ids', [l'], [chars ("INBOX")]⟩ : GRequest)
          ≠ ⟨ids, [l], [chars ("INBOX")]⟩ := by
        intro h
        exact hl' (by simpa using congrArg GRequest.addLabelIds h)
      rw [List.map_cons, List.count_cons_of_ne (Ne.symm hne)]
      exact ih hnd' htl

/-- C5 amended: per cycle, the CLI executor issues exactly one trash request
(adding TRASH, removing INBOX/UNREAD/IMPORTANT) for the whole non-empty delete
set and exactly one batch-modify request per destination entry; the GUI
executor's single trash request removes only INBOX, it issues one request per
destination entry except that the INBOX destination is skipped, and neither
executor issues per-message requests (the request count is one plus the
number of processed destinations). -/
theorem C5_batch_grouping (trash : List Str) (moves : List (Str × List Str))
    (ht : ¬trash.isEmpty = true) (hk : (moves.map Prod.fst).Nodup)
    (hmt : ((chars ("TRASH")), trash) ∉ moves) :
    ((arzRequests trash moves).count
        ⟨trash, [chars ("TRASH")],
          [chars ("INBOX"), chars ("UNREAD"), chars ("IMPORTANT")]⟩ = 1)
    ∧ (∀ p ∈ moves,
        (arzRequests trash moves).count ⟨p.2, [p.1], [chars ("INBOX")]⟩ = 1)
    ∧ (arzRequests trash moves).length = 1 + moves.length
    ∧ ((mainRequests trash moves).count
        ⟨trash, [chars ("TRASH")], [chars ("INBOX")]⟩ = 1)
    ∧ (∀ p ∈ moves, p.1 ≠ chars ("INBOX") →
        (mainRequests trash moves).count ⟨p.2, [p.1], [chars ("INBOX")]⟩ = 1)
    ∧ ((mainRequests trash moves).countP
        (fun r => r.addLabelIds == [chars ("INBOX")])) = 0
    ∧ (mainRequests trash moves).length
        = 1 + (moves.filter (fun p => !(p.1 = chars ("INBOX") : Bool))).length := by
  have harz : arzRequests trash moves
      = (⟨trash, [chars ("TRASH")],
          [chars ("INBOX"), chars ("UNREAD"), chars ("IMPORTANT")]⟩ : GRequest)
        :: moves.map (fun p => ⟨p.2, [p.1], [chars ("INBOX")]⟩) := by
    unfold arzRequests
    simp [ht]
  have hmain : mainRequests trash moves
      = (⟨trash, [chars ("TRASH")], [chars ("INBOX")]⟩ : GRequest)
        :: (moves.filter (fun p => !(p.1 = chars ("INBOX") : Bool))).map
            (fun p => ⟨p.2, [p.1], [chars ("INBOX")]⟩) := by
    unfold mainRequests
    simp [ht]
  have hkf : ((moves.filter (fun p => !(p.1 = chars ("INBOX") : Bool))).map Prod.fst).Nodup :=
    ((List.filter_sublist _).map Prod.fst).nodup hk
  refine ⟨?_, ?_, ?_, ?_, ?_, ?_, ?_⟩
  · rw [harz]
    have hz : (moves.map (fun p => (⟨p.2, [p.1], [chars ("INBOX")]⟩ : GRequest))).count
        ⟨trash, [chars ("TRASH")],
          [chars ("INBOX"), chars ("UNREAD"), chars ("IMPORTANT")]⟩ = 0 := by
      rw [List.count_eq_zero]
      intro hmemr
      obtain ⟨p, hp, hpe⟩ := List.mem_map.mp hmemr
      have := congrArg GRequest.removeLabelIds hpe
      simp at this
    simp [List.count_cons, hz]
  · intro p hp
    rw [harz]
    have hne : (⟨trash, [chars ("TRASH")],
        [chars ("INBOX"), chars ("UNREAD"), chars ("IMPORTANT")]⟩ : GRequest)
        ≠ ⟨p.2, [p.1], [chars ("INBOX")]⟩ := by
      intro h
      have := congrArg GRequest.removeLabelIds h
      simp at this
    rw [List.count_cons_of_ne (Ne.symm hne)]
    exact count_moves_map p.1 p.2 moves hk (by simpa using hp)
  · rw [harz]
    simp [Nat.add_comm]
  · rw [hmain]
    have hz : ((moves.filter (fun p => !(p.1 = chars ("INBOX") : Bool))).map
        (fun p => (⟨p.2, [p.1], [chars ("INBOX")]⟩ : GRequest))).count
        ⟨trash, [chars ("TRASH")], [chars ("INBOX")]⟩ = 0 := by
      rw [List.count_eq_zero]
      intro hmemr
      obtain ⟨p, hp, hpe⟩ := List.mem_map.mp hmemr
      obtain ⟨h2, h1, _⟩ := GRequest.mk.injEq .. ▸ hpe
      have hpm : p ∈ moves := List.mem_of_mem_filter hp
      have : p = ((chars ("TRASH")), trash) := by
        obtain ⟨pa, pb⟩ := p
        simp only at h1 h2
        simp [List.cons.injEq] at h1
        exact Prod.mk.injEq .. ▸ ⟨h1, h2⟩
      exact hmt (this ▸ hpm)
    simp [List.count_cons, hz]
  · intro p hp hpi
    rw [hmain]
    have hne : (⟨trash, [chars ("TRASH")], [chars ("INBOX")]⟩ : GRequest)
        ≠ ⟨p.2, [p.1], [chars ("INBOX")]⟩ := by
      intro h
      obtain ⟨h2, h1, _⟩ := GRequest.mk.injEq .. ▸ h
      simp [List.cons.injEq] at h1
      apply hmt
      have : p = ((chars ("TRASH")), trash) := by
        obtain ⟨pa, pb⟩ := p
        simp only at h1 h2
        exact Prod.mk.injEq .. ▸ ⟨h1.symm, h2.symm⟩
      exact this ▸ hp
    rw [List.count_cons_of_ne (Ne.symm hne)]
    have hpf : p ∈ moves.filter (fun p => !(p.1 = chars ("INBOX") : Bool)) :=
      List.mem_filter.mpr ⟨hp, by simpa using hpi⟩
    exact count_moves_map p.1 p.2 _ hkf (by simpa using hpf)
  · rw [hmain]
    rw [List.countP_cons_of_neg, List.countP_eq_zero]
    · intro r hr
      obtain ⟨p, hp, hpe⟩ := List.mem_map.mp hr
      have hpi : ¬(p.1 = chars ("INBOX")) := by
        simpa using (List.mem_filter.mp hp).2
      subst hpe
      simpa using hpi
    · have hne : (([chars ("TRASH")] : List Str) == [chars ("INBOX")]) = false := by decide
      simp [hne]
  · rw [hmain]
    simp [Nat.add_comm]

/-- C5 amended witness: a concrete two-destination plan. -/
theorem C5_batch_grouping_witness :
    (arzRequests [chars ("m1")] [((chars ("A")), [chars ("m2")]), ((chars ("B")), [chars ("m3")])]).length
      = 1 + 2
    ∧ (mainRequests [chars ("m1")] [((chars ("A")), [chars ("m2")]), ((chars ("B")), [chars ("m3")])]).count
        ⟨[chars ("m1")], [chars ("TRASH")], [chars ("INBOX")]⟩ = 1 :=
  ⟨(C5_batch_grouping [chars ("m1")] [((chars ("A")), [chars ("m2")]), ((chars ("B")), [chars ("m3")])]
      (by decide) (by decide) (by decide)).2.2.1,
   (C5_batch_grouping [chars ("m1")] [((chars ("A")), [chars ("m2")]), ((chars ("B")), [chars ("m3")])]
      (by decide) (by decide) (by decide)).2.2.2.1⟩

/-- A concrete failure pattern: the move-to-trash call fails. -/
def c6fail : GRequest → Bool := fun r => r.addLabelIds == [chars ("TRASH")]

/-- C6 counterexample: on the GUI executor, a failing trash call aborts the
cycle — the due move call for label L1 is never issued, contradicting the
claimed independence of the batched calls. -/
theorem C6_counterexample :
    c6fail ⟨[chars ("m1")], [chars ("TRASH")], [chars ("INBOX")]⟩ = true
    ∧ mainIssued c6fail [chars ("m1")] [((chars ("L1")), [chars ("m2")])]
        = [⟨[chars ("m1")], [chars ("TRASH")], [chars ("INBOX")]⟩]
    ∧ (⟨[chars ("m2")], [chars ("L1")], [chars ("INBOX")]⟩ : GRequest)
        ∈ mainRequests [chars ("m1")] [((chars ("L1")), [chars ("m2")])]
    ∧ (⟨[chars ("m2")], [chars ("L1")], [chars ("INBOX")]⟩ : GRequest)
        ∉ mainIssued c6fail [chars ("m1")] [((chars ("L1")), [chars ("m2")])] := by
  refine ⟨by decide, by decide, by decide, by decide⟩

/-- Sequential issuing stops at the first failure, so the issued calls form a
prefix of the due calls. -/
theorem issueUpTo_isPrefix (fail : GRequest → Bool) (l : List GRequest) :
    issueUpTo fail l <+: l := by
  induction l with
  | nil => simp [issueUpTo]
  | cons r rs ih =>
    by_cases h : fail r = true
    · simp only [issueUpTo, h, if_true]
      exact ⟨rs, rfl⟩
    · simp only [issueUpTo, h, if_false]
      exact (List.cons_prefix_cons).mpr ⟨rfl, ih⟩

/-- When no due call fails, sequential issuing issues them all. -/
theorem issueUpTo_all (fail : GRequest → Bool) (l : List GRequest)
    (h : ∀ r ∈ l, fail r = false) : issueUpTo fail l = l := by
  induction l with
  | nil => rfl
  | cons r rs ih =>
    have hr : fail r = false := h r (List.mem_cons_self r rs)
    simp only [issueUpTo, hr, if_false, Bool.false_eq_true]
    rw [ih (fun x hx => h x (List.mem_cons_of_mem _ hx))]

/-- C6 amended: under any failure pattern, the CLI executor issues every due
batched call of the cycle exactly once (per-call try/except isolates
failures, and nothing is retried); the GUI executor issues a prefix of the
due calls — a failure aborts the rest of the cycle — still never reissuing a
call, and when no call fails it issues them all. -/
theorem C6_failure_isolation (fail : GRequest → Bool) (trash : List Str)
    (moves : List (Str × List Str))
    (hm : (mainRequests trash moves).Nodup)
    (ha : (arzRequests trash moves).Nodup) :
    arzIssued fail trash moves = arzRequests trash moves
    ∧ (arzIssued fail trash moves).Nodup
    ∧ mainIssued fail trash moves <+: mainRequests trash moves
    ∧ (mainIssued fail trash moves).Nodup
    ∧ ((∀ r ∈ mainRequests trash moves, fail r = false) →
        mainIssued fail trash moves = mainRequests trash moves) := by
  refine ⟨rfl, ha, issueUpTo_isPrefix fail _, ?_, ?_⟩
  · exact ((issueUpTo_isPrefix fail _).sublist).nodup hm
  · intro h
    exact issueUpTo_all fail _ h

/-- C6 amended witness: a concrete cycle where the trash call fails. -/
theorem C6_failure_isolation_witness :
    arzIssued c6fail [chars ("m1")] [((chars ("L1")), [chars ("m2")])]
      = arzRequests [chars ("m1")] [((chars ("L1")), [chars ("m2")])]
    ∧ mainIssued c6fail [chars ("m1")] [((chars ("L1")), [chars ("m2")])]
        <+: mainRequests [chars ("m1")] [((chars ("L1")), [chars ("m2")])] :=
  ⟨(C6_failure_isolation c6fail [chars ("m1")] [((chars ("L1")), [chars ("m2")])]
      (by decide) (by decide)).1,
   (C6_failure_isolation c6fail [chars ("m1")] [((chars ("L1")), [chars ("m2")])]
      (by decide) (by decide)).2.2.1⟩

/-- C7 counterexample: on the GUI resolver, a creation conflict (HTTP 409,
here for `Finance` while the provider listing already maps `finance` to
`Label_7`) is swallowed by `except: pass`: the resolver answers unresolved
even though a cache refresh would have yielded `Label_7`. -/
theorem C7_counterexample :
    (mainGetOrCreate (fun _ => CreateOutcome.conflict) ⟨[], 0⟩ (chars ("Finance"))).1 = none
    ∧ dget (chars ("finance")) (fromListing [((chars ("Finance")), chars ("Label_7"))])
        = some (chars ("Label_7")) := by
  refine ⟨by decide, by decide⟩

/-- C7 amended: on an already-exists conflict for a non-system, uncached
name, the CLI resolver (`LabelManager.get_or_create`) refreshes the whole
cache from the provider listing and returns the now-cached identifier for the
lowercased key (unresolved if still absent), issuing exactly one creation
request (never a second one for the conflict); the GUI inline resolver treats
the conflict like any failure — it returns unresolved with the cache
untouched, likewise without a second creation request. -/
theorem C7_conflict_refresh (listing : List (Str × Str))
    (script : Nat → CreateOutcome) (cache : List (Str × Str)) (n : Nat)
    (name : Str)
    (hsys : upperS (pyStrip name) ∉ systemLabels)
    (hmiss : dget (lowerS (pyStrip name)) cache = none)
    (hconf : script n = CreateOutcome.conflict)
    (hmiss2 : dget (lowerS name) cache = none) :
    arzGetOrCreate listing script ⟨cache, n⟩ name
      = (dget (lowerS (pyStrip name)) (fromListing listing),
         ⟨fromListing listing, n + 1⟩)
    ∧ mainGetOrCreate script ⟨cache, n⟩ name = (none, ⟨cache, n + 1⟩) := by
  constructor
  · unfold arzGetOrCreate
    simp only [hsys, if_false, hmiss, hconf]
  · unfold mainGetOrCreate
    simp only [hmiss2, hconf, optTruthy]
    rfl

/-- C7 amended witness: the concrete `Finance` conflict. -/
theorem C7_conflict_refresh_witness :
    arzGetOrCreate [((chars ("Finance")), chars ("Label_7"))]
      (fun _ => CreateOutcome.conflict) ⟨[], 0⟩ (chars ("Finance"))
      = (dget (lowerS (pyStrip (chars ("Finance"))))
          (fromListing [((chars ("Finance")), chars ("Label_7"))]),
         ⟨fromListing [((chars ("Finance")), chars ("Label_7"))], 0 + 1⟩)
    ∧ mainGetOrCreate (fun _ => CreateOutcome.conflict) ⟨[], 0⟩ (chars ("Finance"))
        = (none, ⟨[], 0 + 1⟩) :=
  C7_conflict_refresh [((chars ("Finance")), chars ("Label_7"))]
    (fun _ => CreateOutcome.conflict) [] 0 (chars ("Finance"))
    (by decide) (by decide) (by decide) (by decide)

/-- C8 counterexample: with a provider whose creation requests fail with a
non-conflict error, resolving `Finance` twice in one session issues two
creation requests even though no conflict ever occurred — the claimed
"at most one creation request in total" is false. -/
theorem C8_counterexample :
    (fun _ => CreateOutcome.failure) 0 ≠ CreateOutcome.conflict
    ∧ (fun _ => CreateOutcome.failure) 1 ≠ CreateOutcome.conflict
    ∧ ((arzGetOrCreate [] (fun _ => CreateOutcome.failure)
        (arzGetOrCreate [] (fun _ => CreateOutcome.failure) ⟨[], 0⟩
          (chars ("Finance"))).2
        (chars ("Finance"))).2.creates = 2) := by
  refine ⟨by decide, by decide, by decide⟩

/-- C8 amended: two resolutions of the same name in one session issue at most
one creation request and return the same identifier, provided the first
call's creation request (if one happens) does not fail with a non-conflict
error — after such a failure nothing is cached, so the second call issues a
fresh creation request; for the GUI inline resolver the same holds when
additionally the outcome is not a conflict and a successful creation returns
a non-empty identifier. -/
theorem C8_resolve_idempotent (listing : List (Str × Str))
    (script : Nat → CreateOutcome) (cache : List (Str × Str)) (n : Nat)
    (name : Str)
    (h1 : script n ≠ CreateOutcome.failure)
    (h2 : script n = CreateOutcome.conflict →
        dget (lowerS (pyStrip name)) (fromListing listing) ≠ none) :
    ((arzGetOrCreate listing script
        (arzGetOrCreate listing script ⟨cache, n⟩ name).2 name).1
      = (arzGetOrCreate listing script ⟨cache, n⟩ name).1
    ∧ (arzGetOrCreate listing script
        (arzGetOrCreate listing script ⟨cache, n⟩ name).2 name).2.creates ≤ n + 1)
    ∧ (script n ≠ CreateOutcome.conflict →
       (∀ id, script n = CreateOutcome.success id → ¬id.isEmpty = true) →
        (mainGetOrCreate script
            (mainGetOrCreate script ⟨cache, n⟩ name).2 name).1
          = (mainGetOrCreate script ⟨cache, n⟩ name).1
        ∧ (mainGetOrCreate script
            (mainGetOrCreate script ⟨cache, n⟩ name).2 name).2.creates ≤ n + 1) := by
  constructor
  · by_cases hsys : upperS (pyStrip name) ∈ systemLabels
    · have e1 : arzGetOrCreate listing script ⟨cache, n⟩ name
          = (some (upperS (pyStrip name)), ⟨cache, n⟩) := by
        unfold arzGetOrCreate
        simp only [hsys, if_true]
      simp only [e1, true_and]
      exact Nat.le_succ n
    · rcases hcache : dget (lowerS (pyStrip name)) cache with _ | id
      · rcases hscript : script n with id | _ | _
        · -- successful creation, then a cache hit
          have e1 : arzGetOrCreate listing script ⟨cache, n⟩ name
              = (some id, ⟨dinsert (lowerS (pyStrip name)) id cache, n + 1⟩) := by
            unfold arzGetOrCreate
            simp only [hsys, if_false, hcache, hscript]
          have hhit : dget (lowerS (pyStrip name))
              (dinsert (lowerS (pyStrip name)) id cache) = some id := by
            simp [dget, dinsert, List.lookup]
          have e2 : arzGetOrCreate listing script
              ⟨dinsert (lowerS (pyStrip name)) id cache, n + 1⟩ name
              = (some id, ⟨dinsert (lowerS (pyStrip name)) id cache, n + 1⟩) := by
            unfold arzGetOrCreate
            simp only [hsys, if_false, hhit]
          simp only [e1, e2, true_and]
          exact Nat.le_refl _
        · -- conflict: refresh hit on the second call
          obtain ⟨id, hid⟩ := Option.ne_none_iff_exists'.mp (h2 hscript)
          have e1 : arzGetOrCreate listing script ⟨cache, n⟩ name
              = (some id, ⟨fromListing listing, n + 1⟩) := by
            unfold arzGetOrCreate
            simp only [hsys, if_false, hcache, hscript, hid]
          have e2 : arzGetOrCreate listing script ⟨fromListing listing, n + 1⟩ name
              = (some id, ⟨fromListing listing, n + 1⟩) := by
            unfold arzGetOrCreate
            simp only [hsys, if_false, hid]
          simp only [e1, e2, true_and]
          exact Nat.le_refl _
        · exact absurd hscript h1
      · -- cache hit on both calls
        have e1 : arzGetOrCreate listing script ⟨cache, n⟩ name
            = (some id, ⟨cache, n⟩) := by
          unfold arzGetOrCreate
          simp only [hsys, if_false, hcache]
        simp only [e1, true_and]
        exact Nat.le_succ n
  · intro hnc hne
    by_cases htr : optTruthy (dget (lowerS name) cache) = true
    · have e1 : mainGetOrCreate script ⟨cache, n⟩ name
          = (dget (lowerS name) cache, ⟨cache, n⟩) := by
        unfold mainGetOrCreate
        simp only [htr, if_true]
      simp only [e1, true_and]
      exact Nat.le_succ n
    · rcases hscript : script n with id | _ | _
      · have hid : ¬id.isEmpty = true := hne id hscript
        have e1 : mainGetOrCreate script ⟨cache, n⟩ name
            = (some id, ⟨dinsert (lowerS name) id cache, n + 1⟩) := by
          unfold mainGetOrCreate
          simp only [htr, if_false, hscript, Bool.false_eq_true]
        have hhit : dget (lowerS name) (dinsert (lowerS name) id cache) = some id := by
          simp [dget, dinsert, List.lookup]
        have htr2 : optTruthy (some id) = true := by
          simpa [optTruthy] using hid
        have e2 : mainGetOrCreate script ⟨dinsert (lowerS name) id cache, n + 1⟩ name
            = (some id, ⟨dinsert (lowerS name) id cache, n + 1⟩) := by
          unfold mainGetOrCreate
          simp only [hhit, htr2, if_true]
        simp only [e1, e2, true_and]
        exact Nat.le_refl _
      · exact absurd hscript hnc
      · exact absurd hscript h1

/-- C8 amended witness: a successful creation followed by a cache hit. -/
theorem C8_resolve_idempotent_witness :
    (arzGetOrCreate [] (fun _ => CreateOutcome.success (chars ("Label_9")))
        (arzGetOrCreate [] (fun _ => CreateOutcome.success (chars ("Label_9")))
          ⟨[], 0⟩ (chars ("Finance"))).2 (chars ("Finance"))).1
      = (arzGetOrCreate [] (fun _ => CreateOutcome.success (chars ("Label_9")))
          ⟨[], 0⟩ (chars ("Finance"))).1
    ∧ (arzGetOrCreate [] (fun _ => CreateOutcome.success (chars ("Label_9")))
        (arzGetOrCreate [] (fun _ => CreateOutcome.success (chars ("Label_9")))
          ⟨[], 0⟩ (chars ("Finance"))).2 (chars ("Finance"))).2.creates ≤ 0 + 1 :=
  (C8_resolve_idempotent [] (fun _ => CreateOutcome.success (chars ("Label_9")))
    [] 0 (chars ("Finance")) (by decide) (by decide)).1

/-- C9 counterexample: on a header without `@` (and without angle brackets),
`extract_domain_info` returns the whole address as the domain, not the
claimed sentinel `"unknown"` (the `except` fallback is unreachable since
`str.split` never raises). -/
theorem C9_counterexample :
    extract_domain_info (chars ("foo")) = (chars ("foo"), chars ("foo"))
    ∧ '@' ∉ chars ("foo")
    ∧ chars ("foo") ≠ chars ("unknown") := by
  refine ⟨by decide, by decide, by decide⟩

/-- The part of the address strictly before its last `'@'` (empty when the
address starts with its only `'@'`); spec-side companion of `afterLast` for
stating the "segment after the last `@`" characterization. -/
def beforeLast (c : Char) (s : Str) : Str :=
  ((s.reverse.dropWhile (fun x => !(x = c : Bool))).drop 1).reverse

/-- `takeWhile (· ≠ c)` keeps everything when `c` does not occur. -/
theorem takeWhile_ne_of_not_mem (c : Char) (l : Str) (h : c ∉ l) :
    l.takeWhile (fun x => !(x = c : Bool)) = l := by
  induction l with
  | nil => rfl
  | cons x xs ih =>
    have hx : ¬x = c := fun hxc => h (hxc ▸ List.mem_cons_self x xs)
    have hxs : c ∉ xs := fun hm => h (List.mem_cons_of_mem _ hm)
    rw [List.takeWhile_cons, if_pos (by simp [hx]), ih hxs]

/-- Decomposition of a list at the first occurrence of `c`. -/
theorem exists_first_split (c : Char) (l : Str) (h : c ∈ l) :
    ∃ a b, l = a ++ c :: b ∧ c ∉ a := by
  induction l with
  | nil => cases h
  | cons x xs ih =>
    by_cases hx : x = c
    · exact ⟨[], xs, by simp [hx], by simp⟩
    · have hm : c ∈ xs := by
        rcases List.mem_cons.mp h with h1 | h2
        · exact absurd h1.symm hx
        · exact h2
      obtain ⟨a, b, hab, hna⟩ := ih hm
      refine ⟨x :: a, b, by rw [List.cons_append, hab], ?_⟩
      intro hc
      rcases List.mem_cons.mp hc with h1 | h2
      · exact hx h1.symm
      · exact hna h2

/-- `takeWhile (· ≠ c)` of `a ++ c :: b` is `a` when `c ∉ a`. -/
theorem takeWhile_append_first (c : Char) (a b : Str) (hna : c ∉ a) :
    (a ++ c :: b).takeWhile (fun x => !(x = c : Bool)) = a := by
  induction a with
  | nil => simp [List.takeWhile_cons]
  | cons y ys ih =>
    have hy : ¬y = c := fun hyc => hna (hyc ▸ List.mem_cons_self y ys)
    have hys : c ∉ ys := fun hm => hna (List.mem_cons_of_mem _ hm)
    rw [List.cons_append, List.takeWhile_cons, if_pos (by simp [hy]), ih hys]

/-- `dropWhile (· ≠ c)` of `a ++ c :: b` is `c :: b` when `c ∉ a`. -/
theorem dropWhile_append_first (c : Char) (a b : Str) (hna : c ∉ a) :
    (a ++ c :: b).dropWhile (fun x => !(x = c : Bool)) = c :: b := by
  induction a with
  | nil => simp [List.dropWhile_cons]
  | cons y ys ih =>
    have hy : ¬y = c := fun hyc => hna (hyc ▸ List.mem_cons_self y ys)
    have hys : c ∉ ys := fun hm => hna (List.mem_cons_of_mem _ hm)
    rw [List.cons_append, List.dropWhile_cons, if_pos (by simp [hy]), ih hys]

/-- `afterLast`/`beforeLast` really split a string at its last `c`. -/
theorem lastSplit (c : Char) (e : Str) (h : c ∈ e) :
    e = beforeLast c e ++ c :: afterLast c e ∧ c ∉ afterLast c e := by
  obtain ⟨a, b, hab, hna⟩ :=
    exists_first_split c e.reverse (List.mem_reverse.mpr h)
  have hafter : afterLast c e = a.reverse := by
    unfold afterLast
    rw [hab, takeWhile_append_first c a b hna]
  have hbefore : beforeLast c e = b.reverse := by
    unfold beforeLast
    rw [hab, dropWhile_append_first c a b hna]
    simp
  constructor
  · rw [hafter, hbefore]
    calc e = e.reverse.reverse := (List.reverse_reverse e).symm
      _ = (a ++ c :: b).reverse := by rw [hab]
      _ = b.reverse ++ c :: a.reverse := by simp
  · rw [hafter]
    simpa using hna

/-- `afterLast` is the identity when `c` does not occur. -/
theorem afterLast_of_not_mem (c : Char) (e : Str) (h : c ∉ e) :
    afterLast c e = e := by
  unfold afterLast
  rw [takeWhile_ne_of_not_mem c e.reverse (fun hm => h (List.mem_reverse.mp hm))]
  simp

/-- C9 amended: both parsers take the address from the first `<...>` group
(falling back to the whole header), and the domain is the segment after the
last `@` of the address, lowercased and stripped; when the address contains
no `@`, the GUI parser returns the sentinel `"unknown"` while the CLI parser
returns the whole lowercased, stripped address. Both are total. -/
theorem C9_domain_extraction (sender : Str) :
    (extract_domain_info sender).1 = (searchAngle sender).getD sender
    ∧ mainEmail sender = (searchAngle sender).getD sender
    ∧ ('@' ∈ (extract_domain_info sender).1 →
        (extract_domain_info sender).1
            = beforeLast '@' ((extract_domain_info sender).1)
              ++ '@' :: afterLast '@' ((extract_domain_info sender).1)
        ∧ '@' ∉ afterLast '@' ((extract_domain_info sender).1)
        ∧ (extract_domain_info sender).2
            = pyStrip (lowerS (afterLast '@' ((extract_domain_info sender).1)))
        ∧ mainDomain sender
            = pyStrip (lowerS (afterLast '@' ((extract_domain_info sender).1))))
    ∧ ('@' ∉ (extract_domain_info sender).1 →
        (extract_domain_info sender).2
            = pyStrip (lowerS ((extract_domain_info sender).1))
        ∧ mainDomain sender = chars ("unknown")) := by
  have he : mainEmail sender = (extract_domain_info sender).1 := rfl
  refine ⟨rfl, rfl, ?_, ?_⟩
  · intro h
    obtain ⟨hsplit, hnot⟩ := lastSplit '@' _ h
    refine ⟨hsplit, hnot, rfl, ?_⟩
    unfold mainDomain
    simp only [he]
    rw [if_pos h]
  · intro h
    constructor
    · show pyStrip (lowerS (afterLast '@' ((extract_domain_info sender).1)))
        = pyStrip (lowerS ((extract_domain_info sender).1))
      rw [afterLast_of_not_mem '@' _ h]
    · unfold mainDomain
      simp only [he]
      rw [if_neg h]

/-- C9 amended witness: a header with an `@` and one without. -/
theorem C9_domain_extraction_witness :
    ('@' ∈ (extract_domain_info (chars ("Bob <Bob@Chase.COM >"))).1
      ∧ (extract_domain_info (chars ("Bob <Bob@Chase.COM >"))).2
          = pyStrip (lowerS (afterLast '@'
              ((extract_domain_info (chars ("Bob <Bob@Chase.COM >"))).1))))
    ∧ ('@' ∉ (extract_domain_info (chars ("foo"))).1
      ∧ mainDomain (chars ("foo")) = chars ("unknown")) :=
  ⟨⟨by decide, ((C9_domain_extraction (chars ("Bob <Bob@Chase.COM >"))).2.2.1 (by decide)).2.2.1⟩,
   ⟨by decide, ((C9_domain_extraction (chars ("foo"))).2.2.2 (by decide)).2⟩⟩

/-- Appending one id to a `move_map` bucket adds exactly one occurrence of it
to the flattened plan. -/
theorem mmAppend_flatten_count (x k v : Str) (mm : List (Str × List Str)) :
    (((mmAppend k v mm).map Prod.snd).flatten).count x
      = ((mm.map Prod.snd).flatten).count x + (if v = x then 1 else 0) := by
  induction mm with
  | nil =>
    simp [mmAppend, List.count_cons]
  | cons hd tl ih =>
    obtain ⟨k', vs⟩ := hd
    by_cases hk : k' = k
    · rw [mmAppend, if_pos hk]
      simp only [List.map_cons, List.flatten_cons, List.count_append]
      have hv : ([v] : List Str).count x = (if v = x then 1 else 0) := by
        simp [List.count_cons]
      omega
    · rw [mmAppend, if_neg hk]
      simp only [List.map_cons, List.flatten_cons, List.count_append, ih]
      omega

/-- One scan step places the processed message's id at most once (and no
other id at all) into the plan, whatever the decision was. -/
theorem mainScanStep_count (cfg : MainConfig) (script : Nat → CreateOutcome)
    (oracle : Msg → Option Str) (st : ScanSt) (m : Msg) (x : Str) :
    (planIds (mainScanStep cfg script oracle st m)).count x
      ≤ (planIds st).count x + (if m.id = x then 1 else 0) := by
  unfold mainScanStep
  rcases mainDecide cfg m.sender (oracle m) with _ | name | _
  · dsimp only
    simp only [planIds, List.count_append]
    have hv : ([m.id] : List Str).count x = (if m.id = x then 1 else 0) := by
      simp [List.count_cons]
    omega
  · dsimp only
    by_cases htr : optTruthy (mainGetOrCreate script st.rst name).1 = true
    · rw [if_pos htr]
      simp only [planIds, List.count_append, mmAppend_flatten_count]
      omega
    · rw [if_neg htr]
      simp only [planIds, List.count_append]
      omega
  · dsimp only
    omega

/-- The CLI scan step satisfies the same bound. -/
theorem arzScanStep_count (cfg : ArzConfig) (listing : List (Str × Str))
    (script : Nat → CreateOutcome) (oracle : Msg → Option Str)
    (st : ScanSt) (m : Msg) (x : Str) :
    (planIds (arzScanStep cfg listing script oracle st m)).count x
      ≤ (planIds st).count x + (if m.id = x then 1 else 0) := by
  unfold arzScanStep
  rcases arziusAnalyze cfg m.sender (oracle m) with _ | name | _
  · dsimp only
    simp only [planIds, List.count_append]
    have hv : ([m.id] : List Str).count x = (if m.id = x then 1 else 0) := by
      simp [List.count_cons]
    omega
  · dsimp only
    by_cases htr : optTruthy (arzGetOrCreate listing script st.rst name).1 = true
    · rw [if_pos htr]
      simp only [planIds, List.count_append, mmAppend_flatten_count]
      omega
    · rw [if_neg htr]
      simp only [planIds, List.count_append]
      omega
  · dsimp only
    omega

/-- Folding steps that each add at most their own message id keeps every id's
multiplicity bounded by its multiplicity in the input batch. -/
theorem foldl_count_le (step : ScanSt → Msg → ScanSt)
    (hstep : ∀ st m x, (planIds (step st m)).count x
      ≤ (planIds st).count x + (if m.id = x then 1 else 0)) :
    ∀ (msgs : List Msg) (st : ScanSt) (x : Str),
      (planIds (msgs.foldl step st)).count x
        ≤ (planIds st).count x + (msgs.map Msg.id).count x := by
  intro msgs
  induction msgs with
  | nil => intro st x; simp
  | cons m tl ih =>
    intro st x
    have h1 := ih (step st m) x
    have h2 := hstep st m x
    have h3 : ((m :: tl).map Msg.id).count x
        = (tl.map Msg.id).count x + (if m.id = x then 1 else 0) := by
      simp [List.count_cons]
    simp only [List.foldl_cons]
    omega

/-- A list of identifiers has no duplicates iff every identifier occurs at
most once. -/
theorem nodup_iff_count_le_one_str (l : List Str) :
    l.Nodup ↔ ∀ x, l.count x ≤ 1 := by
  induction l with
  | nil => simp
  | cons y ys ih =>
    rw [List.nodup_cons]
    constructor
    · rintro ⟨hy, hnd⟩ x
      rw [List.count_cons]
      by_cases hxy : y = x
      · subst hxy
        have hz : ys.count y = 0 := List.count_eq_zero.mpr hy
        simp [hz]
      · have h1 := (ih.mp hnd) x
        have hbeq : (y == x) = false := by simpa using hxy
        simp only [hbeq, if_false, Bool.false_eq_true]
        omega
    · intro h
      refine ⟨?_, ih.mpr ?_⟩
      · intro hmem
        have h1 := h y
        rw [List.count_cons] at h1
        have h2 : ys.count y ≠ 0 := fun hz => (List.count_eq_zero.mp hz) hmem
        have h3 : ((y == y) = true) := by simp
        rw [if_pos h3] at h1
        omega
      · intro x
        have h1 := h x
        rw [List.count_cons] at h1
        omega

/-- C10: when the provider returns pairwise-distinct message identifiers,
each identifier is placed into at most one destination of the batch plan by
either scan loop — never both the delete set and a label bucket, never two
buckets, never twice in one bucket. -/
theorem C10_at_most_one_destination (mcfg : MainConfig) (acfg : ArzConfig)
    (listing listing2 : List (Str × Str)) (script script2 : Nat → CreateOutcome)
    (oracle oracle2 : Msg → Option Str) (msgs : List Msg)
    (h : (msgs.map Msg.id).Nodup) :
    (planIds (mainScan mcfg listing script oracle msgs)).Nodup
    ∧ (planIds (arzScan acfg listing2 script2 oracle2 msgs)).Nodup := by
  have hcnt : ∀ x, ((msgs.map Msg.id)).count x ≤ 1 :=
    (nodup_iff_count_le_one_str _).mp h
  constructor
  · rw [nodup_iff_count_le_one_str]
    intro x
    have hb := foldl_count_le (mainScanStep mcfg script oracle)
      (fun st m y => mainScanStep_count mcfg script oracle st m y)
      msgs ⟨[], [], ⟨fromListing listing, 0⟩⟩ x
    have hz : (planIds (⟨[], [], ⟨fromListing listing, 0⟩⟩ : ScanSt)).count x = 0 := by
      simp [planIds]
    unfold mainScan
    have := hcnt x
    omega
  · rw [nodup_iff_count_le_one_str]
    intro x
    have hb := foldl_count_le (arzScanStep acfg listing2 script2 oracle2)
      (fun st m y => arzScanStep_count acfg listing2 script2 oracle2 st m y)
      msgs ⟨[], [], ⟨fromListing listing2, 0⟩⟩ x
    have hz : (planIds (⟨[], [], ⟨fromListing listing2, 0⟩⟩ : ScanSt)).count x = 0 := by
      simp [planIds]
    unfold arzScan
    have := hcnt x
    omega

/-- C10 witness: a concrete two-message batch with distinct ids. -/
theorem C10_witness :
    ((([⟨chars ("m1"), chars ("a@quora.com")⟩,
        ⟨chars ("m2"), chars ("b@x.com")⟩] : List Msg).map Msg.id).Nodup)
    ∧ (planIds (mainScan ⟨[chars ("quora.com")], []⟩ []
        (fun _ => CreateOutcome.failure) (fun _ => none)
        [⟨chars ("m1"), chars ("a@quora.com")⟩,
         ⟨chars ("m2"), chars ("b@x.com")⟩])).Nodup
    ∧ (planIds (arzScan ⟨[chars ("quora.com")], []⟩ []
        (fun _ => CreateOutcome.failure) (fun _ => none)
        [⟨chars ("m1"), chars ("a@quora.com")⟩,
         ⟨chars ("m2"), chars ("b@x.com")⟩])).Nodup :=
  ⟨by decide,
   (C10_at_most_one_destination ⟨[chars ("quora.com")], []⟩
      ⟨[chars ("quora.com")], []⟩ [] [] (fun _ => CreateOutcome.failure)
      (fun _ => CreateOutcome.failure) (fun _ => none) (fun _ => none)
      [⟨chars ("m1"), chars ("a@quora.com")⟩,
       ⟨chars ("m2"), chars ("b@x.com")⟩] (by decide)).1,
   (C10_at_most_one_destination ⟨[chars ("quora.com")], []⟩
      ⟨[chars ("quora.com")], []⟩ [] [] (fun _ => CreateOutcome.failure)
      (fun _ => CreateOutcome.failure) (fun _ => none) (fun _ => none)
      [⟨chars ("m1"), chars ("a@quora.com")⟩,
       ⟨chars ("m2"), chars ("b@x.com")⟩] (by decide)).2⟩

end CalmMail
